import Mathlib

/-!
Shallow embedding of the FTC match predictor (src/src/App.jsx) and proofs
about the claims of its specification.

Conventions of the embedding:
* JavaScript numbers are modelled as real numbers (`ℝ`).  Where the
  JavaScript numeric semantics genuinely matters (division by zero
  producing `Infinity`/`NaN`, `jStat` returning `NaN` on degenerate
  input) we use the four-valued type `JsVal` which distinguishes a
  finite number from `Infinity`, `-Infinity` and `NaN`.
* `jStat.normal.cdf (x, 0, 1)` is the standard normal CDF; it is
  modelled by `Phi`, the integral of the standard normal density over
  `Set.Iic x` (Mathlib's `ProbabilityTheory.gaussianPDFReal 0 1`).
* The `for` loop of `generateNormalData` may diverge (when `std = 0`
  its step is `0`), so it is embedded fuel-indexed: `none` means the
  loop has not terminated within the given number of iterations.
-/

open MeasureTheory ProbabilityTheory

/-- Standard normal cumulative distribution function, the model of
`jStat.normal.cdf (x, 0, 1)`: the integral of the standard normal
density over `(-∞, x]`. -/
noncomputable def Phi (x : ℝ) : ℝ := ∫ t in Set.Iic x, gaussianPDFReal 0 1 t

lemma Phi_nonneg (x : ℝ) : 0 ≤ Phi x :=
  setIntegral_nonneg measurableSet_Iic fun t _ => gaussianPDFReal_nonneg 0 1 t

lemma Phi_le_one (x : ℝ) : Phi x ≤ 1 := by
  have h1 : Phi x ≤ ∫ t, gaussianPDFReal 0 1 t :=
    setIntegral_le_integral (integrable_gaussianPDFReal 0 1)
      (Filter.Eventually.of_forall (gaussianPDFReal_nonneg 0 1))
  rwa [integral_gaussianPDFReal_eq_one 0 one_ne_zero] at h1

lemma gaussianPDFReal_std_neg (t : ℝ) :
    gaussianPDFReal 0 1 (-t) = gaussianPDFReal 0 1 t := by
  simp [gaussianPDFReal, neg_sq]

lemma Phi_add_Phi_neg (x : ℝ) : Phi x + Phi (-x) = 1 := by
  have hmap : (∫ t in Set.Ioi x, gaussianPDFReal 0 1 (-t)) =
      ∫ t in Set.Iic (-x), gaussianPDFReal 0 1 t :=
    integral_comp_neg_Ioi x _
  have heven : (∫ t in Set.Ioi x, gaussianPDFReal 0 1 (-t)) =
      ∫ t in Set.Ioi x, gaussianPDFReal 0 1 t := by
    simp only [gaussianPDFReal_std_neg]
  have hsplit : (∫ t in Set.Iic x, gaussianPDFReal 0 1 t) +
      ∫ t in (Set.Iic x)ᶜ, gaussianPDFReal 0 1 t = ∫ t, gaussianPDFReal 0 1 t :=
    integral_add_compl measurableSet_Iic (integrable_gaussianPDFReal 0 1)
  rw [Set.compl_Iic] at hsplit
  rw [integral_gaussianPDFReal_eq_one 0 one_ne_zero] at hsplit
  calc Phi x + Phi (-x)
      = (∫ t in Set.Iic x, gaussianPDFReal 0 1 t) +
        ∫ t in Set.Iic (-x), gaussianPDFReal 0 1 t := rfl
    _ = (∫ t in Set.Iic x, gaussianPDFReal 0 1 t) +
        ∫ t in Set.Ioi x, gaussianPDFReal 0 1 t := by rw [← hmap, heven]
    _ = 1 := hsplit

lemma Phi_neg_eq (x : ℝ) : Phi (-x) = 1 - Phi x := by
  have := Phi_add_Phi_neg x
  linarith

/-- Embedding of `allianceWinProbability` (App.jsx lines 88-105) over real
arithmetic.  Note that in Lean real division by zero yields `0`; the
degenerate `sigmaD = 0` case with its JavaScript `Infinity`/`NaN`
semantics is modelled separately by `allianceWinProbabilityJs`. -/
noncomputable def allianceWinProbability
    (mu1 sigma1 mu2 sigma2 mu3 sigma3 mu4 sigma4 : ℝ) : ℝ :=
  let muA := mu1 + mu2
  let varA := sigma1 ^ 2 + sigma2 ^ 2
  let muB := mu3 + mu4
  let varB := sigma3 ^ 2 + sigma4 ^ 2
  let muD := muA - muB
  let sigmaD := Real.sqrt (varA + varB)
  Phi (muD / sigmaD)

/-- JavaScript numeric value: a finite number, one of the two infinities,
or `NaN`.  Used where the JS float semantics (division by zero, `NaN`
propagation) is the point of the claim. -/
inductive JsVal where
  | num (x : ℝ)
  | posInf
  | negInf
  | nan

/-- JavaScript division `a / b` for finite operands: when `b = 0` it
yields `Infinity`, `-Infinity` or `NaN` according to the sign of `a`. -/
noncomputable def jsDiv (a b : ℝ) : JsVal :=
  if b = 0 then
    (if 0 < a then JsVal.posInf else if a < 0 then JsVal.negInf else JsVal.nan)
  else JsVal.num (a / b)

/-- Model of `jStat.normal.cdf (·, 0, 1)` on JavaScript values: jStat's
erf-based implementation returns `1` at `Infinity`, `0` at `-Infinity`
and propagates `NaN`. -/
noncomputable def jsNormalCdf : JsVal → JsVal
  | JsVal.num x => JsVal.num (Phi x)
  | JsVal.posInf => JsVal.num 1
  | JsVal.negInf => JsVal.num 0
  | JsVal.nan => JsVal.nan

/-- Embedding of `allianceWinProbability` with the JavaScript semantics of
the division `muD / sigmaD` made explicit. -/
noncomputable def allianceWinProbabilityJs
    (mu1 sigma1 mu2 sigma2 mu3 sigma3 mu4 sigma4 : ℝ) : JsVal :=
  let muA := mu1 + mu2
  let varA := sigma1 ^ 2 + sigma2 ^ 2
  let muB := mu3 + mu4
  let varB := sigma3 ^ 2 + sigma4 ^ 2
  let muD := muA - muB
  let sigmaD := Real.sqrt (varA + varB)
  jsNormalCdf (jsDiv muD sigmaD)

lemma allianceWinProbabilityJs_of_sigmaD_ne_zero
    (mu1 sigma1 mu2 sigma2 mu3 sigma3 mu4 sigma4 : ℝ)
    (h : Real.sqrt (sigma1 ^ 2 + sigma2 ^ 2 + (sigma3 ^ 2 + sigma4 ^ 2)) ≠ 0) :
    allianceWinProbabilityJs mu1 sigma1 mu2 sigma2 mu3 sigma3 mu4 sigma4 =
      JsVal.num (allianceWinProbability mu1 sigma1 mu2 sigma2 mu3 sigma3 mu4 sigma4) := by
  simp only [allianceWinProbabilityJs, allianceWinProbability, jsDiv, if_neg h, jsNormalCdf]

/-- Model of `jStat.mean`: sum divided by length; on an empty array
JavaScript computes `0 / 0 = NaN`. -/
noncomputable def jsMean (s : List ℝ) : JsVal :=
  if s.length = 0 then JsVal.nan else JsVal.num (s.sum / (s.length : ℝ))

/-- Model of jStat's `sumsqerr`: the sum of squared deviations from the
arithmetic mean. -/
noncomputable def sumsqerr (s : List ℝ) : ℝ :=
  (s.map fun x => (x - s.sum / (s.length : ℝ)) ^ 2).sum

/-- Model of `jStat.stdev (s, true)` (sample standard deviation, Bessel
corrected): `sqrt (sumsqerr s / (length - 1))`.  For a single-element
array JavaScript computes `0 / 0 = NaN`; for an empty array it computes
`0 / (-1) = -0` whose square root is `-0`, i.e. the real number `0`. -/
noncomputable def jsStdevSample (s : List ℝ) : JsVal :=
  if s.length = 1 then JsVal.nan
  else JsVal.num (Real.sqrt (sumsqerr s / ((s.length : ℝ) - 1)))

/-- Per-team score distribution (mean, sample standard deviation). -/
structure ScoreDistribution where
  mean : ℝ
  stddev : ℝ

/-- Alliance distribution: mean and variance of the sum of two teams. -/
structure AllianceDistribution where
  mean : ℝ
  variance : ℝ

/-- Embedding of the alliance-combining arithmetic inlined in
`allianceWinProbability` (App.jsx lines 98-101): `muA = mu1 + mu2`,
`varA = sigma1 ** 2 + sigma2 ** 2`. -/
def combine (a b : ScoreDistribution) : AllianceDistribution :=
  { mean := a.mean + b.mean, variance := a.stddev ^ 2 + b.stddev ^ 2 }

lemma allianceWinProbability_eq_combine
    (mu1 sigma1 mu2 sigma2 mu3 sigma3 mu4 sigma4 : ℝ) :
    allianceWinProbability mu1 sigma1 mu2 sigma2 mu3 sigma3 mu4 sigma4 =
      Phi (((combine ⟨mu1, sigma1⟩ ⟨mu2, sigma2⟩).mean -
            (combine ⟨mu3, sigma3⟩ ⟨mu4, sigma4⟩).mean) /
           Real.sqrt ((combine ⟨mu1, sigma1⟩ ⟨mu2, sigma2⟩).variance +
                      (combine ⟨mu3, sigma3⟩ ⟨mu4, sigma4⟩).variance)) := rfl

/-- C1: for all eight team parameters the win probability returned equals
`Phi (muD / sigmaD)` with `muD = (mu1 + mu2) - (mu3 + mu4)` and
`sigmaD = sqrt (sigma1^2 + sigma2^2 + sigma3^2 + sigma4^2)`, where `Phi`
is the standard normal CDF. -/
theorem winProbability_formula_c1
    (mu1 sigma1 mu2 sigma2 mu3 sigma3 mu4 sigma4 : ℝ) :
    allianceWinProbability mu1 sigma1 mu2 sigma2 mu3 sigma3 mu4 sigma4 =
      Phi ((mu1 + mu2 - (mu3 + mu4)) /
        Real.sqrt (sigma1 ^ 2 + sigma2 ^ 2 + sigma3 ^ 2 + sigma4 ^ 2)) := by
  simp only [allianceWinProbability]
  rw [show sigma1 ^ 2 + sigma2 ^ 2 + (sigma3 ^ 2 + sigma4 ^ 2) =
    sigma1 ^ 2 + sigma2 ^ 2 + sigma3 ^ 2 + sigma4 ^ 2 by ring]

/-- C5: for alliances with strictly positive combined variance, swapping
the two alliances complements the win probability:
`winProbability (A, B) = 1 - winProbability (B, A)`. -/
theorem winProbability_complement_c5
    (mu1 sigma1 mu2 sigma2 mu3 sigma3 mu4 sigma4 : ℝ)
    (h : 0 < sigma1 ^ 2 + sigma2 ^ 2 + sigma3 ^ 2 + sigma4 ^ 2) :
    allianceWinProbability mu1 sigma1 mu2 sigma2 mu3 sigma3 mu4 sigma4 =
      1 - allianceWinProbability mu3 sigma3 mu4 sigma4 mu1 sigma1 mu2 sigma2 := by
  simp only [allianceWinProbability]
  rw [show sigma3 ^ 2 + sigma4 ^ 2 + (sigma1 ^ 2 + sigma2 ^ 2) =
      sigma1 ^ 2 + sigma2 ^ 2 + (sigma3 ^ 2 + sigma4 ^ 2) by ring,
    show mu3 + mu4 - (mu1 + mu2) = -(mu1 + mu2 - (mu3 + mu4)) by ring,
    neg_div, Phi_neg_eq]
  ring

/-- Witness for C5 at concrete input: all means `0`, all stddevs `1`. -/
theorem winProbability_complement_c5_witness :
    (0 : ℝ) < 1 ^ 2 + 1 ^ 2 + 1 ^ 2 + 1 ^ 2 ∧
    allianceWinProbability 0 1 0 1 0 1 0 1 =
      1 - allianceWinProbability 0 1 0 1 0 1 0 1 :=
  ⟨by norm_num, winProbability_complement_c5 0 1 0 1 0 1 0 1 (by norm_num)⟩

/-- C3 evaluation: with both alliances of zero combined variance and equal
means (all eight parameters `0`), the code computes `0 / 0 = NaN` and
`jStat.normal.cdf (NaN, 0, 1) = NaN`, so the displayed probability is
`NaN`, not a real number in `[0, 1]`. -/
theorem winProbability_nan_c3 :
    allianceWinProbabilityJs 0 0 0 0 0 0 0 0 = JsVal.nan := by
  have hs : Real.sqrt ((0 : ℝ) ^ 2 + 0 ^ 2 + (0 ^ 2 + 0 ^ 2)) = 0 := by
    norm_num
  simp [allianceWinProbabilityJs, jsDiv, jsNormalCdf, hs]

/-- C2 evaluation: the code performs no sample-count check; on an empty
score series `jStat.mean` yields `NaN` while `jStat.stdev (s, true)`
silently yields `0` (it computes `sqrt (0 / (0 - 1)) = -0`), and on a
one-element series `jStat.stdev (s, true)` computes `0 / 0 = NaN`.  No
`InsufficientDataError` (or any error) is raised. -/
theorem estimator_nan_c2 :
    jsMean ([] : List ℝ) = JsVal.nan ∧
    jsStdevSample ([] : List ℝ) = JsVal.num 0 ∧
    jsStdevSample [(10 : ℝ)] = JsVal.nan := by
  refine ⟨?_, ?_, ?_⟩
  · simp [jsMean]
  · simp [jsStdevSample, sumsqerr]
  · simp [jsStdevSample]

/-- C7: the estimator on `[10, 20, 30]` yields mean `20` and sample
standard deviation `10` (Bessel's correction: `200 / (3 - 1) = 100`,
`sqrt 100 = 10`). -/
theorem estimator_bessel_c7 :
    jsMean [(10 : ℝ), 20, 30] = JsVal.num 20 ∧
    jsStdevSample [(10 : ℝ), 20, 30] = JsVal.num 10 := by
  constructor
  · simp only [jsMean]
    norm_num
  · simp only [jsStdevSample, sumsqerr]
    norm_num
    rw [show (100 : ℝ) = 10 ^ 2 by norm_num, Real.sqrt_sq (by norm_num)]

/-- C6: combining two team distributions into an alliance distribution is
commutative: `combine A B = combine B A`. -/
theorem combine_comm_c6 (a b : ScoreDistribution) :
    combine a b = combine b a := by
  simp only [combine, AllianceDistribution.mk.injEq]
  constructor <;> ring

/-- One entry of a match's `teams` array: a team number and its alliance
color tag. -/
structure TeamEntry where
  teamNumber : Int
  alliance : String

/-- One alliance's score object: the four raw point components used by the
aggregator. -/
structure MatchScore where
  autoSpecimenPoints : ℝ
  autoSamplePoints : ℝ
  dcSpecimenPoints : ℝ
  dcSamplePoints : ℝ

/-- One match record: its `teams` array and its `scores` object, the
latter modelled as a lookup from alliance-color key to score object
(`none` models a missing entry, which is falsy in JavaScript). -/
structure MatchData where
  teams : List TeamEntry
  scores : String → Option MatchScore

/-- The four parallel component arrays accumulated by `getMatches`. -/
structure MatchResults where
  autoSpecimen : List ℝ
  autoSample : List ℝ
  dcSpecimen : List ℝ
  dcSample : List ℝ

/-- Loop body of `getMatches` (App.jsx lines 46-59): find the team's entry
in the match, look up the score for its (lowercased) alliance color, and
if present push the four components; otherwise leave the results
unchanged. -/
def getMatchesStep (teamNumber : Int) (results : MatchResults) (m : MatchData) :
    MatchResults :=
  match m.teams.find? fun t => t.teamNumber == teamNumber with
  | none => results
  | some teamEntry =>
    match m.scores teamEntry.alliance.toLower with
    | none => results
    | some score =>
      { autoSpecimen := results.autoSpecimen ++ [score.autoSpecimenPoints]
        autoSample := results.autoSample ++ [score.autoSamplePoints]
        dcSpecimen := results.dcSpecimen ++ [score.dcSpecimenPoints]
        dcSample := results.dcSample ++ [score.dcSamplePoints] }

/-- Embedding of `getMatches` (App.jsx lines 33-62), with the fetched
match list passed in as data (the network fetch is the excluded
collaborator). -/
def getMatches (data : List MatchData) (teamNumber : Int) : MatchResults :=
  data.foldl (getMatchesStep teamNumber) ⟨[], [], [], []⟩

/-- Embedding of `addArrays` (App.jsx lines 64-66):
`a.map ((v, i) => v + (b[i] || 0))`; a missing `b[i]` contributes `0`. -/
def addArrays (a b : List ℝ) : List ℝ :=
  (List.range a.length).map fun i => a.getD i 0 + b.getD i 0

/-- Embedding of `addScalar` (App.jsx lines 68-70). -/
def addScalar (arr : List ℝ) (scalar : ℝ) : List ℝ :=
  arr.map fun v => v + scalar

/-- The auto-component selection of `getAllScores` (App.jsx line 77):
`auto === "s" ? match.autoSample : match.autoSpecimen`. -/
def selectAuto (auto : String) (m : MatchResults) : List ℝ :=
  if auto == "s" then m.autoSample else m.autoSpecimen

/-- The teleop-component selection of `getAllScores` (App.jsx lines 78-81):
`tele === "s" ? addArrays (total, match.dcSample) : addArrays (total,
match.dcSpecimen)`. -/
def selectTele (tele : String) (total : List ℝ) (m : MatchResults) : List ℝ :=
  if tele == "s" then addArrays total m.dcSample else addArrays total m.dcSpecimen

/-- Embedding of `getAllScores` (App.jsx lines 72-86), with the per-event
match data passed in as a list of event match lists. -/
def getAllScores (eventsData : List (List MatchData)) (team : Int)
    (auto tele : String) (endgame : ℝ) : List ℝ :=
  eventsData.foldl
    (fun allScores eventData =>
      let m := getMatches eventData team
      let total := selectAuto auto m
      let total := selectTele tele total m
      let total := addScalar total endgame
      allScores ++ total)
    ([] : List ℝ)

/-- The match's usable score for a team: the score entry of the alliance
of the team's entry in the match, when both exist. -/
def usableScore (teamNumber : Int) (m : MatchData) : Option MatchScore :=
  (m.teams.find? fun t => t.teamNumber == teamNumber).bind
    fun te => m.scores te.alliance.toLower

lemma getMatchesStep_eq (teamNumber : Int) (results : MatchResults)
    (m : MatchData) :
    getMatchesStep teamNumber results m =
      match usableScore teamNumber m with
      | none => results
      | some score =>
        { autoSpecimen := results.autoSpecimen ++ [score.autoSpecimenPoints]
          autoSample := results.autoSample ++ [score.autoSamplePoints]
          dcSpecimen := results.dcSpecimen ++ [score.dcSpecimenPoints]
          dcSample := results.dcSample ++ [score.dcSamplePoints] } := by
  unfold getMatchesStep usableScore
  cases m.teams.find? fun t => t.teamNumber == teamNumber with
  | none => rfl
  | some te => cases m.scores te.alliance.toLower with
    | none => rfl
    | some score => rfl

lemma getMatches_foldl (teamNumber : Int) (data : List MatchData) :
    ∀ acc : MatchResults,
      data.foldl (getMatchesStep teamNumber) acc =
        { autoSpecimen := acc.autoSpecimen ++
            ((data.filterMap (usableScore teamNumber)).map
              fun s => s.autoSpecimenPoints)
          autoSample := acc.autoSample ++
            ((data.filterMap (usableScore teamNumber)).map
              fun s => s.autoSamplePoints)
          dcSpecimen := acc.dcSpecimen ++
            ((data.filterMap (usableScore teamNumber)).map
              fun s => s.dcSpecimenPoints)
          dcSample := acc.dcSample ++
            ((data.filterMap (usableScore teamNumber)).map
              fun s => s.dcSamplePoints) } := by
  induction data with
  | nil => intro acc; simp
  | cons m data ih =>
    intro acc
    rw [List.foldl_cons, ih, getMatchesStep_eq]
    cases h : usableScore teamNumber m with
    | none => simp [List.filterMap_cons, h]
    | some score => simp [List.filterMap_cons, h]

/-- `getMatches` produces exactly the four component sequences of the
usable matches, in match order. -/
lemma getMatches_eq (data : List MatchData) (teamNumber : Int) :
    getMatches data teamNumber =
      { autoSpecimen := (data.filterMap (usableScore teamNumber)).map
          fun s => s.autoSpecimenPoints
        autoSample := (data.filterMap (usableScore teamNumber)).map
          fun s => s.autoSamplePoints
        dcSpecimen := (data.filterMap (usableScore teamNumber)).map
          fun s => s.dcSpecimenPoints
        dcSample := (data.filterMap (usableScore teamNumber)).map
          fun s => s.dcSamplePoints } := by
  rw [getMatches, getMatches_foldl]
  simp

lemma addArrays_map_map {α : Type} (l : List α) (f g : α → ℝ) :
    addArrays (l.map f) (l.map g) = l.map fun x => f x + g x := by
  apply List.ext_getElem
  · simp [addArrays]
  · intro i h1 h2
    have hi : i < l.length := by simpa [addArrays] using h1
    simp only [addArrays, List.getElem_map, List.getElem_range]
    rw [List.getD_eq_getElem _ _ (by simpa using hi),
      List.getD_eq_getElem _ _ (by simpa using hi)]
    simp

lemma foldl_append_flatten {α : Type} (g : α → List ℝ) (L : List α) :
    ∀ acc : List ℝ,
      L.foldl (fun a ed => a ++ g ed) acc = acc ++ (L.map g).flatten := by
  induction L with
  | nil => intro acc; simp
  | cons x L ih => intro acc; simp [List.foldl_cons, ih]

/-- Per-match total as the spec words it (§4.1): the selected autonomous
component, plus the selected driver-controlled component, plus the fixed
endgame scalar.  The mode flag value `"s"` is the app's encoding of the
"sample" mode (its `select` options are `"S"` = Specimen, `"s"` =
Sample). -/
def specMatchTotal (auto tele : String) (endgame : ℝ) (score : MatchScore) : ℝ :=
  (if auto == "s" then score.autoSamplePoints else score.autoSpecimenPoints) +
    (if tele == "s" then score.dcSamplePoints else score.dcSpecimenPoints) +
    endgame

/-- Score series as the spec words it (§4.1): per event, the usable
matches (those with a recognized alliance/score entry for the team) each
contribute one total; skipped matches contribute nothing; the per-event
series are concatenated in order. -/
def specScoreSeries (eventsData : List (List MatchData)) (team : Int)
    (auto tele : String) (endgame : ℝ) : List ℝ :=
  (eventsData.map fun ed =>
    (ed.filterMap (usableScore team)).map (specMatchTotal auto tele endgame)).flatten

lemma perEvent_total_eq (ed : List MatchData) (team : Int)
    (auto tele : String) (endgame : ℝ) :
    addScalar
        (selectTele tele (selectAuto auto (getMatches ed team)) (getMatches ed team))
        endgame =
      (ed.filterMap (usableScore team)).map (specMatchTotal auto tele endgame) := by
  rw [getMatches_eq]
  cases h1 : auto == "s" <;> cases h2 : tele == "s" <;>
    simp [selectAuto, selectTele, addScalar, specMatchTotal, h1, h2,
      addArrays_map_map, List.map_map, Function.comp]

/-- C8: the Score Aggregator equals its specification: every usable match
contributes the selected auto component plus the selected teleop
component plus the endgame scalar; matches without a recognized
alliance/score entry are skipped (contribute nothing), and zero usable
matches yield an empty series. -/
theorem scoreAggregator_c8 (eventsData : List (List MatchData)) (team : Int)
    (auto tele : String) (endgame : ℝ) :
    getAllScores eventsData team auto tele endgame =
      specScoreSeries eventsData team auto tele endgame := by
  have h : getAllScores eventsData team auto tele endgame =
      (eventsData.map fun ed =>
        addScalar
          (selectTele tele (selectAuto auto (getMatches ed team)) (getMatches ed team))
          endgame).flatten := by
    rw [getAllScores]
    exact (foldl_append_flatten _ eventsData ([] : List ℝ)).trans (by simp)
  rw [h, specScoreSeries]
  congr 1
  exact List.map_congr_left fun ed _ => perEvent_total_eq ed team auto tele endgame

/-- C10: component selection compares the mode flag against the exact
string `"s"`: the sample component is chosen only for `"s"`, and any
other string (including `"S"`, `"sample"`, `"specimen"`) selects the
specimen component; likewise for the teleop flag. -/
theorem modeFlag_exact_c10 :
    (∀ (auto : String) (m : MatchResults),
      auto ≠ "s" → selectAuto auto m = m.autoSpecimen) ∧
    (∀ m : MatchResults, selectAuto "s" m = m.autoSample) ∧
    (∀ m : MatchResults,
      selectAuto "S" m = m.autoSpecimen ∧
      selectAuto "sample" m = m.autoSpecimen ∧
      selectAuto "specimen" m = m.autoSpecimen) ∧
    (∀ (tele : String) (total : List ℝ) (m : MatchResults),
      tele ≠ "s" → selectTele tele total m = addArrays total m.dcSpecimen) ∧
    (∀ (total : List ℝ) (m : MatchResults),
      selectTele "s" total m = addArrays total m.dcSample) := by
  refine ⟨fun auto m h => ?_, fun m => ?_, fun m => ⟨?_, ?_, ?_⟩,
    fun tele total m h => ?_, fun total m => ?_⟩
  · rw [selectAuto, if_neg]
    simpa using h
  · rfl
  · rfl
  · rfl
  · rfl
  · rw [selectTele, if_neg]
    simpa using h
  · rfl

/-- Witness for C10 at concrete inputs: the flag `"S"` (and `"sample"`)
selects the specimen component, the flag `"s"` selects the sample
component. -/
theorem modeFlag_exact_c10_witness :
    ("S" : String) ≠ "s" ∧
    selectAuto "S" ⟨[1], [2], [3], [4]⟩ =
      (⟨[1], [2], [3], [4]⟩ : MatchResults).autoSpecimen ∧
    selectAuto "s" ⟨[1], [2], [3], [4]⟩ =
      (⟨[1], [2], [3], [4]⟩ : MatchResults).autoSample ∧
    selectTele "S" ([0]) ⟨[1], [2], [3], [4]⟩ =
      addArrays ([0]) (⟨[1], [2], [3], [4]⟩ : MatchResults).dcSpecimen :=
  ⟨by decide, modeFlag_exact_c10.1 "S" _ (by decide),
    modeFlag_exact_c10.2.1 _,
    modeFlag_exact_c10.2.2.2.1 "S" ([0]) _ (by decide)⟩

/-- One sampled point of the density curve, as pushed by
`generateNormalData`. -/
structure CurvePoint where
  x : ℝ
  y : ℝ
  label : String

/-- Model of `parseFloat (x.toFixed 2)`: rounding to two decimal
places. -/
noncomputable def round2 (x : ℝ) : ℝ := ((round (100 * x) : ℤ) : ℝ) / 100

/-- Model of `jStat.normal.pdf (x, mean, std)`: the normal density
formula (as the source's exp/log form evaluates for `std > 0`). -/
noncomputable def normalPdf (mean std x : ℝ) : ℝ :=
  1 / (std * Real.sqrt (2 * Real.pi)) * Real.exp (-((x - mean) ^ 2) / (2 * std ^ 2))

lemma normalPdf_nonneg {std : ℝ} (hstd : 0 < std) (mean t : ℝ) :
    0 ≤ normalPdf mean std t := by
  unfold normalPdf
  have h1 : 0 < std * Real.sqrt (2 * Real.pi) :=
    mul_pos hstd (Real.sqrt_pos.mpr (by positivity))
  exact mul_nonneg (div_nonneg zero_le_one h1.le) (Real.exp_pos _).le

/-- Fuel-indexed embedding of the `for (let x = min; x <= max; x += step)`
loop of `generateNormalData` (App.jsx lines 114-117).  `none` means the
loop did not terminate within `fuel` iterations. -/
noncomputable def genLoopGo (mean std maxv step : ℝ) (label : String) :
    ℕ → ℝ → Option (List CurvePoint)
  | 0, _ => none
  | fuel + 1, x =>
    if x ≤ maxv then
      match genLoopGo mean std maxv step label fuel (x + step) with
      | none => none
      | some rest =>
        some ({ x := round2 x, y := normalPdf mean std x, label := label } :: rest)
    else
      some ([])

/-- Embedding of `generateNormalData` (App.jsx lines 108-120).  The local
names `lo`, `hi`, `step` correspond to the source's `min`, `max`,
`step`. -/
noncomputable def generateNormalData (fuel : ℕ) (mean std : ℝ)
    (label : String) : Option (List CurvePoint) :=
  let lo := mean - 3 * std
  let hi := mean + 3 * std
  let step := (hi - lo) / 50
  genLoopGo mean std hi step label fuel lo

lemma genLoopGo_succ (mean std maxv step : ℝ) (label : String) (fuel : ℕ)
    (x : ℝ) :
    genLoopGo mean std maxv step label (fuel + 1) x =
      if x ≤ maxv then
        match genLoopGo mean std maxv step label fuel (x + step) with
        | none => none
        | some rest =>
          some ({ x := round2 x, y := normalPdf mean std x, label := label } :: rest)
      else some ([]) := rfl

lemma genLoopGo_exit {mean std maxv step : ℝ} {label : String} {x : ℝ}
    (h : ¬ x ≤ maxv) {fuel : ℕ} (hf : 1 ≤ fuel) :
    genLoopGo mean std maxv step label fuel x = some ([]) := by
  cases fuel with
  | zero => omega
  | succ n => rw [genLoopGo_succ, if_neg h]

lemma genLoopGo_no_progress {mean std maxv step : ℝ} {label : String}
    {x : ℝ} (hstep : step = 0) (hx : x ≤ maxv) (fuel : ℕ) :
    genLoopGo mean std maxv step label fuel x = none := by
  subst hstep
  induction fuel with
  | zero => rfl
  | succ n ih =>
    rw [genLoopGo_succ, if_pos hx, add_zero, ih]

lemma genLoopGo_run (mean std maxv step : ℝ) (label : String)
    (hstep : 0 < step) :
    ∀ (n : ℕ) (x : ℝ) (fuel : ℕ),
      x + (n : ℝ) * step ≤ maxv →
      maxv < x + ((n : ℝ) + 1) * step →
      n + 2 ≤ fuel →
      ∃ pts : List CurvePoint,
        genLoopGo mean std maxv step label fuel x = some pts ∧
        pts.length = n + 1 ∧
        pts.head? =
          some { x := round2 x, y := normalPdf mean std x, label := label } ∧
        pts.getLast? =
          some { x := round2 (x + (n : ℝ) * step),
                 y := normalPdf mean std (x + (n : ℝ) * step), label := label } ∧
        ∀ p ∈ pts, ∃ t : ℝ, p.y = normalPdf mean std t := by
  intro n
  induction n with
  | zero =>
    intro x fuel h1 h2 hf
    have hx : x ≤ maxv := by
      rw [Nat.cast_zero, zero_mul, add_zero] at h1
      exact h1
    have hxs : ¬ x + step ≤ maxv := by
      rw [Nat.cast_zero, zero_add, one_mul] at h2
      linarith
    obtain ⟨f, rfl⟩ : ∃ f, fuel = f + 1 := ⟨fuel - 1, by omega⟩
    rw [genLoopGo_succ, if_pos hx, genLoopGo_exit hxs (by omega : 1 ≤ f)]
    refine ⟨[{ x := round2 x, y := normalPdf mean std x, label := label }],
      rfl, rfl, rfl, ?_, ?_⟩
    · rw [Nat.cast_zero, zero_mul, add_zero]
      rfl
    · intro p hp
      rw [List.mem_singleton] at hp
      exact ⟨x, by rw [hp]⟩
  | succ n ih =>
    intro x fuel h1 h2 hf
    have hnn : (0 : ℝ) ≤ ((n : ℝ) + 1) * step := by positivity
    have hx : x ≤ maxv := by
      push_cast at h1
      nlinarith
    obtain ⟨f, rfl⟩ : ∃ f, fuel = f + 1 := ⟨fuel - 1, by omega⟩
    have h1a : (x + step) + (n : ℝ) * step ≤ maxv := by
      push_cast at h1
      linarith
    have h2a : maxv < (x + step) + ((n : ℝ) + 1) * step := by
      push_cast at h2
      linarith
    obtain ⟨rest, hrest, hlen, hhead, hlast, hy⟩ :=
      ih (x + step) f h1a h2a (by omega)
    rw [genLoopGo_succ, if_pos hx, hrest]
    have hne : rest ≠ [] := by
      intro hnil
      rw [hnil] at hlen
      simp at hlen
    obtain ⟨r, rs, rfl⟩ := List.exists_cons_of_ne_nil hne
    refine ⟨{ x := round2 x, y := normalPdf mean std x, label := label } ::
      r :: rs, rfl, ?_, rfl, ?_, ?_⟩
    · simp only [List.length_cons] at hlen ⊢
      omega
    · rw [List.getLast?_cons_cons, hlast]
      have harg : x + step + (n : ℝ) * step = x + ((n : ℝ) + 1) * step := by
        ring
      rw [harg]
      push_cast
      rfl
    · intro p hp
      rw [List.mem_cons] at hp
      cases hp with
      | inl h => exact ⟨x, by rw [h]⟩
      | inr h => exact hy p h

lemma generateNormalData_run (mean std : ℝ) (label : String) (fuel : ℕ)
    (hstd : 0 < std) (hfuel : 52 ≤ fuel) :
    ∃ pts : List CurvePoint,
      generateNormalData fuel mean std label = some pts ∧
      pts.length = 51 ∧
      pts.head? = some { x := round2 (mean - 3 * std),
                         y := normalPdf mean std (mean - 3 * std),
                         label := label } ∧
      pts.getLast? = some { x := round2 (mean + 3 * std),
                            y := normalPdf mean std (mean + 3 * std),
                            label := label } ∧
      ∀ p ∈ pts, ∃ t : ℝ, p.y = normalPdf mean std t := by
  have hstep : 0 < (mean + 3 * std - (mean - 3 * std)) / 50 := by
    have h6 : mean + 3 * std - (mean - 3 * std) = 6 * std := by ring
    rw [h6]
    positivity
  have h1 : (mean - 3 * std) + ((50 : ℕ) : ℝ) *
      ((mean + 3 * std - (mean - 3 * std)) / 50) ≤ mean + 3 * std := by
    push_cast
    have : (mean - 3 * std) + (50 : ℝ) *
        ((mean + 3 * std - (mean - 3 * std)) / 50) = mean + 3 * std := by
      ring
    linarith
  have h2 : mean + 3 * std < (mean - 3 * std) + (((50 : ℕ) : ℝ) + 1) *
      ((mean + 3 * std - (mean - 3 * std)) / 50) := by
    push_cast
    have heq : (mean - 3 * std) + ((50 : ℝ) + 1) *
        ((mean + 3 * std - (mean - 3 * std)) / 50) =
        mean + 3 * std + (6 * std) / 50 := by
      ring
    rw [heq]
    have : 0 < 6 * std / 50 := by positivity
    linarith
  obtain ⟨pts, hrun, hlen, hhead, hlast, hy⟩ :=
    genLoopGo_run mean std (mean + 3 * std)
      ((mean + 3 * std - (mean - 3 * std)) / 50) label hstep 50
      (mean - 3 * std) fuel h1 h2 (by omega)
  refine ⟨pts, ?_, hlen, hhead, ?_, hy⟩
  · simpa only [generateNormalData] using hrun
  · rw [hlast]
    have harg : (mean - 3 * std) + ((50 : ℕ) : ℝ) *
        ((mean + 3 * std - (mean - 3 * std)) / 50) = mean + 3 * std := by
      push_cast
      ring
    rw [harg]

/-- C4 as stated is false: for a negative stddev the domain is inverted
(`min > max`), the loop body never runs, and zero points are emitted
instead of 51.  Concretely at `mean = 0`, `std = -1`. -/
theorem curveGenerator_c4_counterexample :
    (generateNormalData 100 0 (-1) "A").map List.length ≠ some 51 := by
  have h : generateNormalData 100 0 (-1) "A" = some ([]) := by
    simp only [generateNormalData]
    exact genLoopGo_exit (by norm_num) (by norm_num)
  rw [h]
  simp

/-- C4 amended: for every mean and every strictly positive stddev (and
enough fuel for the loop, which then terminates), the Curve Generator
emits exactly 51 points, the first point's x is `mean - 3 * std`
rounded to 2 decimals, the last point's x is `mean + 3 * std` rounded
to 2 decimals, and every point's y is nonnegative. -/
theorem curveGenerator_c4_amended (mean std : ℝ) (label : String)
    (fuel : ℕ) (hstd : 0 < std) (hfuel : 52 ≤ fuel) :
    ∃ pts : List CurvePoint,
      generateNormalData fuel mean std label = some pts ∧
      pts.length = 51 ∧
      pts.head?.map CurvePoint.x = some (round2 (mean - 3 * std)) ∧
      pts.getLast?.map CurvePoint.x = some (round2 (mean + 3 * std)) ∧
      ∀ p ∈ pts, 0 ≤ p.y := by
  obtain ⟨pts, hrun, hlen, hhead, hlast, hy⟩ :=
    generateNormalData_run mean std label fuel hstd hfuel
  refine ⟨pts, hrun, hlen, ?_, ?_, ?_⟩
  · rw [hhead]
    rfl
  · rw [hlast]
    rfl
  · intro p hp
    obtain ⟨t, ht⟩ := hy p hp
    rw [ht]
    exact normalPdf_nonneg hstd mean t

/-- Witness for the amended C4 at `mean = 0`, `std = 1`, fuel `52`. -/
theorem curveGenerator_c4_witness :
    (0 : ℝ) < 1 ∧ 52 ≤ 52 ∧
    ∃ pts : List CurvePoint,
      generateNormalData 52 0 1 "A" = some pts ∧
      pts.length = 51 ∧
      pts.head?.map CurvePoint.x = some (round2 (0 - 3 * 1)) ∧
      pts.getLast?.map CurvePoint.x = some (round2 (0 + 3 * 1)) ∧
      ∀ p ∈ pts, 0 ≤ p.y :=
  ⟨by norm_num, by norm_num,
    curveGenerator_c4_amended 0 1 "A" 52 (by norm_num) (by norm_num)⟩

/-- C9: the sampling loop terminates for every nonzero stddev - for a
negative stddev it exits immediately with an empty sequence, for a
positive stddev it terminates (within 52 iterations) with a result -
while for stddev = 0 the step is 0, the condition `x <= max` never
becomes false, and the loop never terminates (no amount of fuel
produces a result). -/
theorem curveLoop_termination_c9 (mean : ℝ) (label : String) :
    (∀ std : ℝ, std < 0 → ∀ fuel : ℕ, 1 ≤ fuel →
      generateNormalData fuel mean std label = some ([])) ∧
    (∀ std : ℝ, 0 < std → ∃ (fuel : ℕ) (pts : List CurvePoint),
      generateNormalData fuel mean std label = some pts) ∧
    (∀ fuel : ℕ, generateNormalData fuel mean 0 label = none) := by
  refine ⟨?_, ?_, ?_⟩
  · intro std hstd fuel hf
    simp only [generateNormalData]
    exact genLoopGo_exit (not_le.mpr (by linarith)) hf
  · intro std hstd
    obtain ⟨pts, hrun, -, -, -, -⟩ :=
      generateNormalData_run mean std label 52 hstd (by norm_num)
    exact ⟨52, pts, hrun⟩
  · intro fuel
    simp only [generateNormalData]
    exact genLoopGo_no_progress (by norm_num) (by linarith) fuel

/-- Witness for C9 at `mean = 0`: with `std = -1` the loop exits at once
with no points, with `std = 1` it terminates with a result, and with
`std = 0` it never terminates. -/
theorem curveLoop_termination_c9_witness :
    generateNormalData 1 0 (-1) "A" = some ([]) ∧
    (∃ (fuel : ℕ) (pts : List CurvePoint),
      generateNormalData fuel 0 1 "A" = some pts) ∧
    generateNormalData 7 0 0 "A" = none :=
  ⟨(curveLoop_termination_c9 0 "A").1 (-1) (by norm_num) 1 (by norm_num),
    (curveLoop_termination_c9 0 "A").2.1 1 (by norm_num),
    (curveLoop_termination_c9 0 "A").2.2 7⟩
